import Mathlib

/-!
Verification development for the MinecraftLauncher-core pipeline
(src/components/handler.js and src/components/launcher.js).

The JavaScript source is shallowly embedded as executable Lean functions.
JavaScript-specific behaviour is modelled explicitly:
an absent value (undefined) is Option.none; JS truthiness of the relevant
value kinds is modelled by the truthy* helpers; a thrown TypeError is
Except.error (); effects (HTTP requests, process execution, file system
writes) are returned as explicit effect lists.
-/

instance {e a : Type} [DecidableEq e] [DecidableEq a] : DecidableEq (Except e a) := fun x y =>
  match x, y with
  | Except.ok v, Except.ok w =>
    if h : v = w then isTrue (by rw [h]) else isFalse (by simp [h])
  | Except.error v, Except.error w =>
    if h : v = w then isTrue (by rw [h]) else isFalse (by simp [h])
  | Except.ok _, Except.error _ => isFalse (by simp)
  | Except.error _, Except.ok _ => isFalse (by simp)

/-- JS truthiness of a possibly-undefined boolean (undefined and false are falsy). -/
def truthyOptBool : Option Bool → Bool
  | none => false
  | some b => b

/-- JS truthiness of a possibly-undefined number (undefined and 0 are falsy). -/
def truthyNat : Option Nat → Bool
  | none => false
  | some n => n != 0

/-- JS truthiness of a possibly-undefined string (undefined and the empty string are falsy). -/
def truthyStr : Option String → Bool
  | none => false
  | some s => s != ""

/-- Splits a character list at every occurrence of the separator,
mirroring the JS String.prototype.split with a one-character separator. -/
def splitCharList (sep : Char) : List Char → List (List Char)
  | [] => [[]]
  | c :: rest =>
    let r := splitCharList sep rest
    if c == sep then [] :: r
    else match r with
      | h :: t => (c :: h) :: t
      | [] => [[c]]

/-- JS s.split(sep) for a one-character separator (the only form the source uses). -/
def splitChar (sep : Char) (s : String) : List String :=
  (splitCharList sep s.data).map String.mk

/-- JS Array.prototype.join with the given separator. -/
def joinSep (sep : String) : List String → String
  | [] => ""
  | [x] => x
  | x :: rest => x ++ sep ++ joinSep sep rest

/-- JS s.replace(dot-regexp-global, slash): every dot becomes a slash. -/
def dotToSlash (s : String) : String :=
  joinSep "/" (splitChar '.' s)

/-- Handler.popString (handler.js lines 469-473): split on slash, pop the
last component, join back with slashes. -/
def popString (p : String) : String :=
  joinSep "/" ((splitChar '/' p).dropLast)

/-- The path separator used when the embedding joins directory and file names.
The model fixes a posix separator; the claims under study do not depend on it. -/
def pathSep : String := "/"

/-- The os clause of a library rule (the object stored under the os key). -/
structure OsClause where
  name : String
deriving DecidableEq, Repr

/-- One entry of a library's rules array. -/
structure Rule where
  action : String
  os : Option OsClause
deriving DecidableEq, Repr

/-- One native artifact record (a value of the downloads.classifiers map). -/
structure NativeArtifact where
  path : String
  url : String
  sha1 : String
deriving DecidableEq, Repr

/-- The downloads.artifact record of a library. -/
structure Artifact where
  path : Option String
  url : String
deriving DecidableEq, Repr

/-- The downloads record of a library. The classifiers map is modelled as an
association list from classifier name to artifact. -/
structure Downloads where
  artifact : Option Artifact
  classifiers : Option (List (String × NativeArtifact))
deriving DecidableEq, Repr

/-- One library entry of a version descriptor (handler.js reads the fields
name, rules, downloads and url). Absent fields are none. -/
structure Library where
  name : String
  rules : Option (List Rule)
  downloads : Option Downloads
  url : Option String
deriving DecidableEq, Repr

/-- Handler.parseRule (handler.js lines 223-239). The JS function returns
true, false, a comparison result, or falls through returning undefined;
reading rules[0].action of an empty rules array, or .name of an absent os
clause on the second rule, throws a TypeError. Return value:
Except.error () models the TypeError, Except.ok none the undefined
fall-through, Except.ok (some b) an explicit boolean return. -/
def parseRule (lib : Library) (curOS : String) : Except Unit (Option Bool) :=
  match lib.rules with
  | none => Except.ok (some false)
  | some rules =>
    if rules.length > 1 then
      match rules.get? 0, rules.get? 1 with
      | some r0, some r1 =>
        if r0.action == "allow" then
          if r1.action == "disallow" then
            match r1.os with
            | some clause =>
              if clause.name == "osx" then Except.ok (some (curOS == "osx"))
              else Except.ok (some true)
            | none => Except.error ()
          else Except.ok (some true)
        else Except.ok (some true)
      | _, _ => Except.error ()
    else
      match rules.get? 0 with
      | some r0 =>
        if r0.action == "allow" && r0.os.isSome then Except.ok (some (curOS != "osx"))
        else Except.ok none
      | none => Except.error ()

/-- Whether a library is included by the callers of parseRule. Both call
sites (getNatives line 251 and getClasses line 459) skip the library when
parseRule's return value is truthy, so inclusion is the negated truthiness
of the returned value. -/
def libIncluded (lib : Library) (curOS : String) : Except Unit Bool :=
  (parseRule lib curOS).map (fun r => !(truthyOptBool r))

/-- The loop body accumulator of Handler.cleanUp: newArray grows by each
element not already contained in it. -/
def cleanUpAux (newArray : List String) : List String → List String
  | [] => newArray
  | c :: rest =>
    if c ∈ newArray then cleanUpAux newArray rest
    else cleanUpAux (newArray ++ [c]) rest

/-- Handler.cleanUp (handler.js lines 475-482): iterates the array in order
and pushes each element not already present (JS includes uses string
equality, modelled by decidable membership). -/
def cleanUp (array : List String) : List String :=
  cleanUpAux [] array

/-- The entries of the -cp string built on the Forge-legacy path
(launcher.js line 114): the forge jar, then forge.paths, then the
cleaned-up classes, then the client jar, joined by the separator. Only the
classes argument has passed through cleanUp (launcher.js line 108). -/
def forgeClasspathEntries (forgeJar : String) (forgePaths : List String)
    (classes : List String) (mcPath : String) : List String :=
  forgeJar :: (forgePaths ++ classes ++ [mcPath])

/-- The per-library body of Handler.downloadToDirectory (handler.js lines
409-440) for a present (non-null) library. Returns the classpath entry
pushed for the library and the list of download URLs requested for it.
The onDisk predicate stands for the fs existence check of jarPath/name.
JS template interpolation of an out-of-range split component prints the
string undefined, which the model reproduces. -/
def processLibrary (directory : String) (onDisk : String → Bool) (library : Library) :
    String × List String :=
  let lib := splitChar ':' library.name
  let libPart := fun (i : Nat) => (lib.get? i).getD "undefined"
  let artifactPath : Option String :=
    match library.downloads with
    | none => none
    | some dl =>
      match dl.artifact with
      | none => none
      | some a => a.path
  let usePath := truthyStr artifactPath
  let name :=
    if usePath then (splitChar '/' (artifactPath.getD "")).getLastD ""
    else libPart 1 ++ "-" ++ libPart 2 ++
      (match lib.get? 3 with
       | some c => if c == "" then "" else "-" ++ c
       | none => "") ++ ".jar"
  let jarPath :=
    if usePath then directory ++ "/" ++ popString (artifactPath.getD "")
    else directory ++ "/" ++ dotToSlash (libPart 0) ++ "/" ++ libPart 1 ++ "/" ++ libPart 2
  let downloadsIssued : List String :=
    if onDisk (jarPath ++ "/" ++ name) then []
    else if truthyStr library.url then
      [library.url.getD "" ++ dotToSlash (libPart 0) ++ "/" ++ libPart 1 ++ "/" ++ libPart 2
        ++ "/" ++ name]
    else
      match library.downloads with
      | none => []
      | some dl =>
        match dl.artifact with
        | none => []
        | some a => [a.url]
  (jarPath ++ pathSep ++ name, downloadsIssued)

/-- Handler.downloadToDirectory (handler.js lines 406-444): null entries are
skipped, every processed library pushes its classpath entry, and the issued
download requests are collected. Returns (pushed classpath entries,
all download URLs issued). -/
def downloadToDirectory (directory : String) (libraries : List (Option Library))
    (onDisk : String → Bool) : List String × List String :=
  let results := libraries.filterMap (fun ol => ol.map (processLibrary directory onDisk))
  (results.map Prod.fst, (results.map Prod.snd).flatten)

/-- One entry of the version manifest's versions array. -/
structure ManifestEntry where
  id : String
  url : String
deriving DecidableEq, Repr

/-- Handler.getVersion (handler.js lines 113-142). The function resolves its
promise from the on-disk version JSON when the readFile succeeds, but the
inner return only exits the then-callback: execution continues past the
await and unconditionally issues the GET of the version manifest, and one
further GET per manifest entry whose id matches the requested version.
Returns (the value the promise resolves with, the HTTP GET URLs issued);
a none value models a promise that never resolves. -/
def getVersion (onDiskJson : Option String) (metaUrl : String)
    (manifest : List ManifestEntry) (versionNumber : String)
    (fetchBody : String → String) : Option String × List String :=
  let entries := manifest.filter (fun e => e.id == versionNumber)
  let gets := (metaUrl ++ "/mc/game/version_manifest.json") :: entries.map (fun e => e.url)
  let value : Option String :=
    match onDiskJson with
    | some s => some s
    | none => entries.head?.map (fun e => fetchBody e.url)
  (value, gets)

/-- File-system and process effects of the natives phase. -/
inductive NEffect where
  | mkdirp (dir : String)
  | download (url : String) (dir : String) (name : String)
  | checkSum (sha1 : String) (file : String)
  | extract (file : String) (dest : String)
  | rmFile (file : String)
deriving DecidableEq, Repr

/-- The length property read off the pending readdir Promise object in
handler.js line 244: fsPromises.readdir(dir) is a Promise, a Promise object
has no length property, so the read yields undefined no matter what the
directory contains. The pending value (the entry list) is never consulted. -/
def readdirPromiseLength (_entries : List String) : Option Nat :=
  none

/-- The guard of Handler.getNatives (handler.js line 244):
not (await exists dir) or not (fsPromises.readdir(dir).length). The second
operand negates the undefined length of the Promise object, not the length
of the entry array. -/
def nativesPhaseRuns (dirExists : Bool) (entries : List String) : Bool :=
  !dirExists || !(truthyNat (readdirPromiseLength entries))

/-- Lookup in the classifiers association map (JS property access). -/
def lookupClassifier (cls : List (String × NativeArtifact)) (k : String) : Option NativeArtifact :=
  (cls.find? (fun p => p.1 == k)).map (fun p => p.2)

/-- The classifier selection of getNatives (handler.js lines 253-255):
on osx prefer natives-osx, fall back to natives-macos; otherwise take
natives-(os tag). -/
def selectNative (cls : List (String × NativeArtifact)) (curOS : String) : Option NativeArtifact :=
  if curOS == "osx" then
    match lookupClassifier cls "natives-osx" with
    | some a => some a
    | none => lookupClassifier cls "natives-macos"
  else lookupClassifier cls ("natives-" ++ curOS)

/-- The natives collection of getNatives (handler.js lines 247-260): per
library, skip when downloads.classifiers is absent, skip when parseRule is
truthy, otherwise push the selected (possibly undefined) classifier.
Reading lib.downloads of a library without a downloads record throws. -/
def collectNatives : List Library → String → Except Unit (List (Option NativeArtifact))
  | [], _ => Except.ok []
  | lib :: rest, curOS =>
    match collectNatives rest curOS with
    | Except.error e => Except.error e
    | Except.ok tail =>
      match lib.downloads with
      | none => Except.error ()
      | some dl =>
        match dl.classifiers with
        | none => Except.ok tail
        | some cls =>
          match parseRule lib curOS with
          | Except.error e => Except.error e
          | Except.ok r =>
            if truthyOptBool r then Except.ok tail
            else Except.ok (selectNative cls curOS :: tail)

/-- The per-native body of getNatives (handler.js lines 269-293): undefined
natives are skipped; otherwise download, hash-check (with one re-download on
mismatch, decided by the sumOk oracle), extract, and delete the archive. -/
def nativeEffects (nativeDirectory : String) (sumOk : String → String → Bool) :
    Option NativeArtifact → List NEffect
  | none => []
  | some native =>
    let name := (splitChar '/' native.path).getLastD ""
    let file := nativeDirectory ++ "/" ++ name
    [NEffect.download native.url nativeDirectory name, NEffect.checkSum native.sha1 file]
    ++ (if sumOk native.sha1 file then [] else [NEffect.download native.url nativeDirectory name])
    ++ [NEffect.extract file nativeDirectory, NEffect.rmFile file]

/-- Handler.getNatives (handler.js lines 241-301): when the guard of line
244 holds, the directory is created and every collected native is
downloaded, verified, extracted and removed; the native directory path is
returned either way. -/
def getNatives (libraries : List Library) (curOS : String) (nativeDirectory : String)
    (dirExists : Bool) (entries : List String) (sumOk : String → String → Bool) :
    Except Unit (List NEffect × String) :=
  if nativesPhaseRuns dirExists entries then
    match collectNatives libraries curOS with
    | Except.error e => Except.error e
    | Except.ok stat =>
      Except.ok (NEffect.mkdirp nativeDirectory ::
        (stat.map (nativeEffects nativeDirectory sumOk)).flatten, nativeDirectory)
  else Except.ok ([], nativeDirectory)

/-- Process and file effects of the Forge overlay phase. -/
inductive FEffect where
  | execProcess (cmd : String)
  | readFile (p : String)
  | emitDebug (msg : String)
deriving DecidableEq, Repr

/-- A JS runtime value as far as the Forge overlay wiring observes it:
the literal false returned by getForgeDependenciesLegacy for a modern
installer, or a function value (an async arrow closure carrying the effects
its body would perform if it were ever invoked). -/
inductive JsVal where
  | vfalse
  | closure (bodyEffects : List FEffect)
deriving DecidableEq, Repr

/-- The launchArgs command string built inside getForgedWrapped
(handler.js lines 382-384). -/
def forgeWrapperLaunchArgs (javaPath : Option String) (fwJar forgeOpt root libraryDirectory
    fwVersion : String) : String :=
  "\"" ++ (if truthyStr javaPath then javaPath.getD "" else "java") ++ "\" -jar " ++ fwJar
    ++ " --installer=" ++ forgeOpt ++ " --instance=" ++ root ++ " "
    ++ "--saveTo=" ++ libraryDirectory ++ "/io/github/zekerzhayard/ForgeWrapper/" ++ fwVersion

/-- The effects the body of the arrow function inside getForgedWrapped would
perform if the function were invoked: execute ForgeWrapper, then read
forge/(version id)/version.json. -/
def forgedWrappedBody (launchArgs forgeJsonPath : String) : List FEffect :=
  [FEffect.execProcess launchArgs, FEffect.readFile forgeJsonPath]

/-- Handler.getForgedWrapped (handler.js lines 379-397). The function body
is a single return of an async arrow function; calling getForgedWrapped
therefore performs no effects and yields that closure as its value. -/
def getForgedWrapped (launchArgs forgeJsonPath : String) : List FEffect × JsVal :=
  ([], JsVal.closure (forgedWrappedBody launchArgs forgeJsonPath))

/-- JS await of a non-thenable value yields the value itself; a function
object is not a thenable, so awaiting it does not run its body. -/
def jsAwait (v : JsVal) : JsVal := v

/-- The Forge branch of MCLCore.launch (launcher.js lines 80-89) for a
forge option whose archive contains an install_profile.json entry:
getForgeDependenciesLegacy emits a debug line and returns false (handler.js
lines 311-314), then custom is set to await getForgedWrapped(), which is
the un-invoked closure. Returns (effects performed, the custom value).
The legacy-universal branch is modelled separately (forgeClasspathEntries
and downloadToDirectory) and is irrelevant here. -/
def launchForgePhase (hasInstallProfile : Bool) (launchArgs forgeJsonPath : String) :
    List FEffect × Option JsVal :=
  if hasInstallProfile then
    let debugEffects :=
      [FEffect.emitDebug "[MCLC]: Detected Forge installer, will treat as custom with ForgeWrapper"]
    let call := getForgedWrapped launchArgs forgeJsonPath
    let custom := jsAwait call.2
    (debugEffects ++ call.1, some custom)
  else ([], none)

/-- Handler.isLegacy (handler.js lines 554-556). -/
def isLegacy (assets : String) : Bool :=
  assets == "legacy" || assets == "pre-1.6"

/-- The minArgs computation of getLaunchOptions (handler.js line 495):
overrides.minArgs or-chained with isLegacy as the condition of the
conditional operator. JS parses a or b ? x : y as (a or b) ? x : y, so the
whole expression is 5 whenever the override is truthy or the version is
legacy, and 11 otherwise; the override's numeric value is never used. -/
def minArgsCode (overridesMinArgs : Option Nat) (legacy : Bool) : Nat :=
  if truthyNat overridesMinArgs || legacy then 5 else 11

/-- A game-argument token: a literal string, or a structured (non-string)
Arg entry. The source never inspects the payload of a structured entry
(only typeof is tested), so the payload is not modelled. -/
inductive Tok where
  | str (s : String)
  | obj
deriving DecidableEq, Repr

/-- The authorization record (pre-resolved, options.authorization). -/
structure Authorization where
  access_token : String
  name : String
  uuid : String
  user_properties : String
deriving DecidableEq, Repr

/-- The window option. Width and height are carried as strings;
their JS values are pushed verbatim and never inspected. -/
structure WindowOpt where
  fullscreen : Bool
  width : String
  height : String
deriving DecidableEq, Repr

/-- The server option. -/
structure ServerOpt where
  host : String
  port : Option String
deriving DecidableEq, Repr

/-- The proxy option. -/
structure ProxyOpt where
  host : String
  port : Option String
  username : String
  password : String
deriving DecidableEq, Repr

/-- The slice of the launch options that getLaunchOptions reads. -/
structure LaunchCfg where
  authorization : Authorization
  versionNumber : String
  versionType : String
  root : String
  assetRoot : String
  assetIndexId : String
  overridesMinArgs : Option Nat
  window : Option WindowOpt
  server : Option ServerOpt
  proxy : Option ProxyOpt
  customLaunchArgs : Option (List Tok)
deriving DecidableEq, Repr

/-- The asset path of getLaunchOptions (handler.js lines 490-493): the
legacy subdirectory of the asset root for legacy versions. -/
def gloAssetPath (cfg : LaunchCfg) (legacy : Bool) : String :=
  if legacy then cfg.assetRoot ++ "/legacy" else cfg.assetRoot

/-- The substitution table of getLaunchOptions (handler.js lines 500-513),
in source order. -/
def fields (cfg : LaunchCfg) (assetPath : String) : List (String × String) :=
  [("${auth_access_token}", cfg.authorization.access_token),
   ("${auth_session}", cfg.authorization.access_token),
   ("${auth_player_name}", cfg.authorization.name),
   ("${auth_uuid}", cfg.authorization.uuid),
   ("${user_properties}", cfg.authorization.user_properties),
   ("${user_type}", "mojang"),
   ("${version_name}", cfg.versionNumber),
   ("${assets_index_name}", cfg.assetIndexId),
   ("${game_directory}", cfg.root),
   ("${assets_root}", assetPath),
   ("${game_assets}", assetPath),
   ("${version_type}", cfg.versionType)]

/-- Lookup of a key in the substitution table (Object.keys(fields).includes
followed by property read, both with string equality). -/
def lookupField (fs : List (String × String)) (k : String) : Option String :=
  (fs.find? (fun p => p.1 == k)).map (fun p => p.2)

/-- The replacement applied to a string token found in the table. -/
def substStr (fs : List (String × String)) (s : String) : String :=
  match lookupField fs s with
  | some v => v
  | none => s

/-- The substitution step as applied to a token: a structured entry is
never equal to a string key, so it passes through unchanged. -/
def substTok (fs : List (String × String)) : Tok → Tok
  | Tok.str s => Tok.str (substStr fs s)
  | Tok.obj => Tok.obj

/-- JS args.splice(i, 2): removes the two elements at positions i and i+1. -/
def spliceTwoAt (l : List Tok) (i : Nat) : List Tok :=
  l.take i ++ l.drop (i + 2)

/-- First statement of the loop body at handler.js line 516: when the token
at the index is a structured (object) entry, splice it and its successor. -/
def stepSplice (args : List Tok) (i : Nat) : List Tok :=
  match args.get? i with
  | some Tok.obj => spliceTwoAt args i
  | _ => args

/-- Second statement of the loop body at handler.js lines 517-519: after the
possible splice, the token now at the index (if any, and if it is a key of
the table) is replaced in place by its table value. -/
def stepSubst (fs : List (String × String)) (args : List Tok) (i : Nat) : List Tok :=
  match args.get? i with
  | some (Tok.str s) =>
    match lookupField fs s with
    | some v => args.set i (Tok.str v)
    | none => args
  | _ => args

/-- The index loop of getLaunchOptions (handler.js lines 515-520), run on
fuel. The index advances by one per iteration and the array never grows, so
fuel equal to the remaining distance to the end of the array is exact. -/
def argsLoopAux (fs : List (String × String)) : Nat → List Tok → Nat → List Tok
  | 0, args, _ => args
  | fuel + 1, args, i =>
    if i < args.length then argsLoopAux fs fuel (stepSubst fs (stepSplice args i) i) (i + 1)
    else args

/-- The index loop of getLaunchOptions (handler.js lines 515-520) started at
index i: splice structured entries, substitute recognized placeholders. -/
def argsLoop (fs : List (String × String)) (args : List Tok) (i : Nat) : List Tok :=
  argsLoopAux fs (args.length - i) args i

/-- Structural characterization of one pass of the loop: a visited string
token is substituted; a visited structured token is spliced out with its
immediate successor, the element sliding into the vacated slot receives
only the substitution check of the same iteration (never the typeof check),
and the scan resumes after it. -/
def loopSpec (fs : List (String × String)) : List Tok → List Tok
  | [] => []
  | Tok.str s :: rest => Tok.str (substStr fs s) :: loopSpec fs rest
  | Tok.obj :: [] => []
  | [Tok.obj, _] => []
  | Tok.obj :: _ :: y :: rest2 => substTok fs y :: loopSpec fs rest2

/-- A version descriptor as read by getLaunchOptions: the legacy
minecraftArguments string, the modern arguments.game array, and the assets
tag (used by isLegacy on the vanilla descriptor). -/
structure Descriptor where
  minecraftArguments : Option String
  argumentsGame : Option (List Tok)
  assets : String
deriving DecidableEq, Repr

/-- Token-list selection of handler.js lines 487-489: the split legacy
string when minecraftArguments is truthy, else the arguments.game array
itself. The boolean records whether the produced list is the very
arguments.game array object (aliased) rather than a fresh array; reading
.game of an absent arguments record throws. -/
def descGameTokens (d : Descriptor) : Except Unit (List Tok × Bool) :=
  if truthyStr d.minecraftArguments then
    Except.ok ((splitChar ' ' (d.minecraftArguments.getD "")).map Tok.str, false)
  else
    match d.argumentsGame with
    | some g => Except.ok (g, true)
    | none => Except.error ()

/-- The window push of handler.js lines 522-526. -/
def windowTokens (w : WindowOpt) : List Tok :=
  if w.fullscreen then [Tok.str "--fullscreen"]
  else [Tok.str "--width", Tok.str w.width, Tok.str "--height", Tok.str w.height]

/-- The server push of handler.js line 527 (port defaults to 25565 when
falsy). -/
def serverTokens (s : ServerOpt) : List Tok :=
  [Tok.str "--server", Tok.str s.host, Tok.str "--port",
   Tok.str (if truthyStr s.port then s.port.getD "" else "25565")]

/-- The proxy push of handler.js lines 528-539 (port defaults to 8080 when
falsy). -/
def proxyTokens (p : ProxyOpt) : List Tok :=
  [Tok.str "--proxyHost", Tok.str p.host,
   Tok.str "--proxyPort", Tok.str (if truthyStr p.port then p.port.getD "" else "8080"),
   Tok.str "--proxyUser", Tok.str p.username,
   Tok.str "--proxyPass", Tok.str p.password]

/-- The three conditional pushes after the substitution loop (handler.js
lines 522-539). Array.prototype.push mutates the array in place. -/
def pushTokens (cfg : LaunchCfg) : List Tok :=
  (match cfg.window with | some w => windowTokens w | none => [])
  ++ (match cfg.server with | some s => serverTokens s | none => [])
  ++ (match cfg.proxy with | some p => proxyTokens p | none => [])

/-- The observable outcome of getLaunchOptions: the returned argument list,
and the contents of the type descriptor's arguments.game array object after
the call (none when the descriptor had no such array). -/
structure GLOResult where
  ret : List Tok
  gameAfter : Option (List Tok)
deriving DecidableEq, Repr

/-- Handler.getLaunchOptions (handler.js lines 484-543) restricted to its
argument synthesis. The args binding starts as either a fresh split of the
legacy string or the arguments.game array object itself; Array.concat at
line 496 (the below-minArgs append) and at line 540 (customLaunchArgs)
return fresh arrays, while splice, in-place substitution, and push mutate
the array args is currently bound to. gameAfter records what the type
descriptor's arguments.game holds once the call returns. -/
def getLaunchOptions (cfg : LaunchCfg) (typeDesc vanilla : Descriptor) :
    Except Unit GLOResult :=
  match descGameTokens typeDesc with
  | Except.error e => Except.error e
  | Except.ok (args0, aliased0) =>
    let legacy := isLegacy vanilla.assets
    let minA := minArgsCode cfg.overridesMinArgs legacy
    let step : Except Unit (List Tok × Bool) :=
      if args0.length < minA then
        match descGameTokens vanilla with
        | Except.error e => Except.error e
        | Except.ok (vtoks, _) => Except.ok (args0 ++ vtoks, false)
      else Except.ok (args0, aliased0)
    match step with
    | Except.error e => Except.error e
    | Except.ok (args1, aliased) =>
      let fs := fields cfg (gloAssetPath cfg legacy)
      let looped := argsLoop fs args1 0
      let pushed := looped ++ pushTokens cfg
      let ret := pushed ++ (cfg.customLaunchArgs.getD [])
      Except.ok (GLOResult.mk ret (if aliased then some pushed else typeDesc.argumentsGame))

/-! Concrete inputs used by the closed theorems below. -/

/-- A launch configuration with no optional pushes and no custom arguments. -/
def cfgPlain : LaunchCfg :=
  LaunchCfg.mk (Authorization.mk "T" "Steve" "U" "P") "1.19.2" "release" "/r" "/r/assets" "3"
    none none none none none

/-- The same configuration with one custom launch argument that happens to be
a recognized placeholder. -/
def cfgCustomPlaceholder : LaunchCfg :=
  LaunchCfg.mk (Authorization.mk "T" "Steve" "U" "P") "1.19.2" "release" "/r" "/r/assets" "3"
    none none none none (some [Tok.str "${user_type}"])

/-- A vanilla descriptor with a two-token legacy argument string. -/
def vanillaLegacyXY : Descriptor := Descriptor.mk (some "x y") none ""

/-- A modern descriptor whose game array holds two structured entries
separated by one token, padded to eleven entries. -/
def modernStructured : Descriptor :=
  Descriptor.mk none (some ([Tok.obj, Tok.str "a", Tok.obj] ++ List.replicate 8 (Tok.str "t"))) ""

/-- A modern descriptor with eleven plain string tokens. -/
def elevenTok : List Tok := List.replicate 11 (Tok.str "t")

/-- The same eleven tokens as a descriptor. -/
def modernElevenT : Descriptor := Descriptor.mk none (some elevenTok) ""

/-- A library with a natives-linux classifier. -/
def nativesLib : Library :=
  Library.mk "org.lwjgl:lwjgl:2.9" none
    (some (Downloads.mk none (some [("natives-linux", NativeArtifact.mk "a/b-natives.jar" "u" "h")])))
    none

/-! List helper lemmas. -/

theorem take_append_length {a : Type} (l1 l2 : List a) : (l1 ++ l2).take l1.length = l1 := by
  induction l1 with
  | nil => simp
  | cons x t ih => simp [ih]

theorem get?_append_length {a : Type} (l1 l2 : List a) : (l1 ++ l2).get? l1.length = l2.get? 0 := by
  induction l1 with
  | nil => rfl
  | cons x t ih => simpa using ih

theorem set_append_length {a : Type} (l1 l2 : List a) (x b : a) :
    (l1 ++ x :: l2).set l1.length b = l1 ++ b :: l2 := by
  induction l1 with
  | nil => rfl
  | cons y t ih => simp [List.set, ih]

theorem get?_at_length {a : Type} (l : List a) : l.get? l.length = none := by
  induction l with
  | nil => rfl
  | cons x t ih => simpa using ih

theorem drop_append_length_add {a : Type} (l1 l2 : List a) (n : Nat) :
    (l1 ++ l2).drop (l1.length + n) = l2.drop n := by
  induction l1 with
  | nil => simp
  | cons x t ih => simpa [Nat.succ_add] using ih

/-! Characterization of the substitution loop. -/

theorem stepSplice_append_str (processed : List Tok) (s : String) (r : List Tok) :
    stepSplice (processed ++ Tok.str s :: r) processed.length = processed ++ Tok.str s :: r := by
  rw [stepSplice, get?_append_length]
  rfl

theorem stepSplice_append_obj (processed r : List Tok) :
    stepSplice (processed ++ Tok.obj :: r) processed.length = processed ++ r.drop 1 := by
  rw [stepSplice, get?_append_length]
  show spliceTwoAt (processed ++ Tok.obj :: r) processed.length = processed ++ r.drop 1
  rw [spliceTwoAt, take_append_length]
  rw [drop_append_length_add processed (Tok.obj :: r) 2]
  rfl

theorem stepSubst_append_tok (fs : List (String × String)) (processed : List Tok) (y : Tok)
    (r2 : List Tok) :
    stepSubst fs (processed ++ y :: r2) processed.length = processed ++ substTok fs y :: r2 := by
  rw [stepSubst, get?_append_length]
  cases y with
  | obj => rfl
  | str s =>
    show (match lookupField fs s with
      | some v => (processed ++ Tok.str s :: r2).set processed.length (Tok.str v)
      | none => processed ++ Tok.str s :: r2) = processed ++ substTok fs (Tok.str s) :: r2
    cases h : lookupField fs s with
    | some v => simp [set_append_length, substTok, substStr, h]
    | none => simp [substTok, substStr, h]

theorem stepSubst_at_end (fs : List (String × String)) (l : List Tok) :
    stepSubst fs l l.length = l := by
  rw [stepSubst, get?_at_length]

theorem argsLoopAux_spec (fs : List (String × String)) :
    ∀ (fuel : Nat) (rest processed : List Tok), rest.length ≤ fuel →
    argsLoopAux fs fuel (processed ++ rest) processed.length = processed ++ loopSpec fs rest := by
  intro fuel
  induction fuel with
  | zero =>
    intro rest processed h
    have hr : rest = [] := List.eq_nil_of_length_eq_zero (Nat.le_zero.mp h)
    subst hr
    simp [argsLoopAux, loopSpec]
  | succ n ih =>
    intro rest processed h
    match rest with
    | [] => simp [argsLoopAux, loopSpec]
    | Tok.str s :: r =>
      rw [argsLoopAux]
      rw [if_pos (by simp)]
      rw [stepSplice_append_str, stepSubst_append_tok]
      have h2 : r.length ≤ n := by simpa using h
      have hih := ih r (processed ++ [substTok fs (Tok.str s)]) h2
      simp only [List.append_assoc, List.singleton_append, List.length_append, List.length_cons,
        List.length_nil] at hih ⊢
      rw [loopSpec]
      simpa [substTok] using hih
    | Tok.obj :: [] =>
      rw [argsLoopAux]
      rw [if_pos (by simp)]
      rw [stepSplice_append_obj]
      simp only [List.drop_nil, List.append_nil]
      rw [stepSubst_at_end]
      cases n with
      | zero => simp [argsLoopAux, loopSpec]
      | succ m =>
        rw [argsLoopAux]
        rw [if_neg (by omega)]
        simp [loopSpec]
    | Tok.obj :: x :: [] =>
      rw [argsLoopAux]
      rw [if_pos (by simp)]
      rw [stepSplice_append_obj]
      simp only [List.drop_succ_cons, List.drop_nil, List.append_nil]
      rw [stepSubst_at_end]
      cases n with
      | zero => simp at h
      | succ m =>
        rw [argsLoopAux]
        rw [if_neg (by omega)]
        simp [loopSpec]
    | Tok.obj :: x :: y :: r2 =>
      rw [argsLoopAux]
      rw [if_pos (by simp)]
      rw [stepSplice_append_obj]
      simp only [List.drop_succ_cons, List.drop_zero]
      rw [stepSubst_append_tok]
      have h2 : r2.length ≤ n := by simp at h; omega
      have hih := ih r2 (processed ++ [substTok fs y]) h2
      simp only [List.append_assoc, List.singleton_append, List.length_append, List.length_cons,
        List.length_nil] at hih ⊢
      rw [loopSpec]
      simpa using hih

theorem argsLoop_eq_loopSpec (fs : List (String × String)) (l : List Tok) :
    argsLoop fs l 0 = loopSpec fs l := by
  have h := argsLoopAux_spec fs l.length l [] (Nat.le_refl _)
  simpa [argsLoop] using h

theorem loopSpec_no_obj (fs : List (String × String)) :
    ∀ (l : List Tok), Tok.obj ∉ l → loopSpec fs l = l.map (substTok fs)
  | [], _ => rfl
  | Tok.str s :: rest, h => by
    rw [loopSpec, loopSpec_no_obj fs rest (fun hm => h (List.mem_cons_of_mem _ hm))]
    rfl
  | Tok.obj :: rest, h => absurd (List.mem_cons_self _ _) h

theorem loopSpec_single_obj (fs : List (String × String)) :
    ∀ (pre post : List Tok), Tok.obj ∉ pre → Tok.obj ∉ post →
    loopSpec fs (pre ++ Tok.obj :: post) = (pre ++ post.drop 1).map (substTok fs)
  | [], [], _, _ => rfl
  | [], [x], _, _ => rfl
  | [], x :: y :: post2, _, hpost => by
    have hy : Tok.obj ∉ (y :: post2) := fun hm => hpost (List.mem_cons_of_mem _ hm)
    have hpost2 : Tok.obj ∉ post2 := fun hm => hy (List.mem_cons_of_mem _ hm)
    simp only [List.nil_append, loopSpec, loopSpec_no_obj fs post2 hpost2, List.drop_succ_cons,
      List.drop_zero, List.map_cons]
  | Tok.str s :: pre2, post, hpre, hpost => by
    have hpre2 : Tok.obj ∉ pre2 := fun hm => hpre (List.mem_cons_of_mem _ hm)
    have hcons : (Tok.str s :: pre2) ++ Tok.obj :: post
        = Tok.str s :: (pre2 ++ Tok.obj :: post) := rfl
    rw [hcons, loopSpec, loopSpec_single_obj fs pre2 post hpre2 hpost]
    rfl
  | Tok.obj :: pre2, post, hpre, _ => absurd (List.mem_cons_self _ _) hpre

theorem loopSpec_mem (fs : List (String × String)) (l : List Tok) (t : Tok)
    (h : t ∈ loopSpec fs l) : ∃ u : Tok, t = substTok fs u := by
  induction l using loopSpec.induct fs with
  | case1 => simp [loopSpec] at h
  | case2 s rest ih =>
    rw [loopSpec] at h
    rcases List.mem_cons.mp h with h1 | h2
    · exact ⟨Tok.str s, by simp [substTok, h1]⟩
    · exact ih h2
  | case3 => simp [loopSpec] at h
  | case4 => simp [loopSpec] at h
  | case5 x y rest2 ih =>
    rw [loopSpec] at h
    rcases List.mem_cons.mp h with h1 | h2
    · exact ⟨y, h1⟩
    · exact ih h2

theorem lookupField_value_mem (fs : List (String × String)) (k v : String)
    (h : lookupField fs k = some v) : ∃ p, p ∈ fs ∧ p.2 = v := by
  unfold lookupField at h
  cases hf : fs.find? (fun p => p.1 == k) with
  | none => rw [hf] at h; simp at h
  | some p =>
    rw [hf] at h
    simp at h
    exact ⟨p, List.mem_of_find?_eq_some hf, h⟩

/-! Properties of cleanUp. -/

theorem cleanUpAux_mem :
    ∀ (l acc : List String) (x : String), x ∈ cleanUpAux acc l ↔ x ∈ acc ∨ x ∈ l := by
  intro l
  induction l with
  | nil => intro acc x; simp [cleanUpAux]
  | cons c rest ih =>
    intro acc x
    by_cases h : c ∈ acc
    · rw [cleanUpAux, if_pos h, ih]
      simp only [List.mem_cons]
      constructor
      · rintro (h1 | h2)
        · exact Or.inl h1
        · exact Or.inr (Or.inr h2)
      · rintro (h1 | h2 | h3)
        · exact Or.inl h1
        · exact Or.inl (h2 ▸ h)
        · exact Or.inr h3
    · rw [cleanUpAux, if_neg h, ih]
      simp only [List.mem_append, List.mem_singleton, List.mem_cons]
      tauto

theorem cleanUpAux_nodup :
    ∀ (l acc : List String), acc.Nodup → (cleanUpAux acc l).Nodup := by
  intro l
  induction l with
  | nil => intro acc h; simpa [cleanUpAux] using h
  | cons c rest ih =>
    intro acc h
    by_cases hc : c ∈ acc
    · rw [cleanUpAux, if_pos hc]
      exact ih acc h
    · rw [cleanUpAux, if_neg hc]
      exact ih (acc ++ [c]) (by simp [List.nodup_append, h, hc])

theorem cleanUpAux_sublist :
    ∀ (l acc : List String), ∃ s, cleanUpAux acc l = acc ++ s ∧ List.Sublist s l := by
  intro l
  induction l with
  | nil => intro acc; exact ⟨[], by simp [cleanUpAux], List.Sublist.refl []⟩
  | cons c rest ih =>
    intro acc
    by_cases hc : c ∈ acc
    · obtain ⟨s, heq, hsub⟩ := ih acc
      exact ⟨s, by rw [cleanUpAux, if_pos hc, heq], hsub.cons c⟩
    · obtain ⟨s, heq, hsub⟩ := ih (acc ++ [c])
      refine ⟨c :: s, ?_, hsub.cons₂ c⟩
      rw [cleanUpAux, if_neg hc, heq]
      simp

/-! Claim theorems. -/

/-- Claim C1, counterexample. The claim states that a library with rules
allow followed by disallow with os.name osx is included exactly on osx.
On the code, parseRule returns (current OS equals osx) and both callers
skip the library when that value is truthy, so this very shape is excluded
on osx and included on linux. -/
theorem parseRule_osx_pair_counterexample :
    libIncluded (Library.mk "lwjgl" (some [Rule.mk "allow" none,
        Rule.mk "disallow" (some (OsClause.mk "osx"))]) none none) "osx" = Except.ok false
    ∧ libIncluded (Library.mk "lwjgl" (some [Rule.mk "allow" none,
        Rule.mk "disallow" (some (OsClause.mk "osx"))]) none none) "linux" = Except.ok true := by
  exact ⟨rfl, rfl⟩

/-- Claim C1, amended. The inclusion decided by parseRule and its callers
is: no rules, included; a single allow rule carrying an os clause, included
exactly on osx; the allow then disallow-osx pair, included exactly off osx;
a pair whose first rule is not allow, excluded everywhere; any other single
rule, included (the undefined fall-through is treated as falsy). -/
theorem parseRule_inclusion_characterization (curOS : String) :
    (∀ (nm : String) (dl : Option Downloads) (u : Option String),
      libIncluded (Library.mk nm none dl u) curOS = Except.ok true)
    ∧ (∀ (nm : String) (dl : Option Downloads) (u : Option String) (c : OsClause),
      libIncluded (Library.mk nm (some [Rule.mk "allow" (some c)]) dl u) curOS
        = Except.ok (curOS == "osx"))
    ∧ (∀ (nm : String) (dl : Option Downloads) (u : Option String) (c0 : Option OsClause),
      libIncluded (Library.mk nm (some [Rule.mk "allow" c0,
        Rule.mk "disallow" (some (OsClause.mk "osx"))]) dl u) curOS
        = Except.ok (curOS != "osx"))
    ∧ (∀ (nm : String) (dl : Option Downloads) (u : Option String)
        (c0 c1 : Option OsClause) (act1 : String),
      libIncluded (Library.mk nm (some [Rule.mk "disallow" c0, Rule.mk act1 c1]) dl u) curOS
        = Except.ok false)
    ∧ (∀ (nm : String) (dl : Option Downloads) (u : Option String) (c0 : Option OsClause),
      libIncluded (Library.mk nm (some [Rule.mk "disallow" c0]) dl u) curOS
        = Except.ok true) := by
  refine ⟨fun nm dl u => rfl, ?_, ?_, fun nm dl u c0 c1 act1 => rfl, fun nm dl u c0 => rfl⟩
  · intro nm dl u c
    simp [libIncluded, parseRule, truthyOptBool, Except.map, bne]
  · intro nm dl u c0
    simp [libIncluded, parseRule, truthyOptBool, Except.map, bne]

/-- Claim C2 (code bug). The skip guard of getNatives reads the length
property of the pending readdir Promise object, which is undefined, so the
guard holds for every directory state and the phase always runs: with the
natives directory existing and non-empty, the downloads, hash checks,
extraction and archive deletion still all happen. Only the final part of
the claim survives: the directory path itself is returned. -/
theorem getNatives_never_skips :
    (∀ (dirExists : Bool) (entries : List String), nativesPhaseRuns dirExists entries = true)
    ∧ getNatives [nativesLib] "linux" "/n" true ["extracted.so"] (fun _ _ => true)
      = Except.ok ([NEffect.mkdirp "/n", NEffect.download "u" "/n" "b-natives.jar",
          NEffect.checkSum "h" "/n/b-natives.jar", NEffect.extract "/n/b-natives.jar" "/n",
          NEffect.rmFile "/n/b-natives.jar"], "/n")
    ∧ NEffect.download "u" "/n" "b-natives.jar"
        ∈ [NEffect.mkdirp "/n", NEffect.download "u" "/n" "b-natives.jar",
          NEffect.checkSum "h" "/n/b-natives.jar", NEffect.extract "/n/b-natives.jar" "/n",
          NEffect.rmFile "/n/b-natives.jar"] := by
  refine ⟨?_, by decide, by decide⟩
  intro d e
  simp [nativesPhaseRuns, readdirPromiseLength, truthyNat]

/-- Claim C3 (code bug). getForgedWrapped returns its async arrow function
without invoking it, and awaiting a function value yields the function
itself: on the modern-installer path no ForgeWrapper process is executed,
forge/(id)/version.json is never read, and the custom value handed to the
rest of the launch pipeline is the un-invoked closure instead of a parsed
descriptor. -/
theorem forgeWrapper_not_invoked (launchArgs forgeJsonPath : String) :
    FEffect.execProcess launchArgs ∉ (launchForgePhase true launchArgs forgeJsonPath).1
    ∧ FEffect.readFile forgeJsonPath ∉ (launchForgePhase true launchArgs forgeJsonPath).1
    ∧ (launchForgePhase true launchArgs forgeJsonPath).2
        = some (JsVal.closure (forgedWrappedBody launchArgs forgeJsonPath)) := by
  refine ⟨?_, ?_, rfl⟩ <;> simp [launchForgePhase, getForgedWrapped, jsAwait]

/-- Claim C4 (code bug). The conditional at handler.js line 495 parses as
(override or legacy) question 5 colon 11, so the threshold is always 5 or
11 and a set override only collapses it to 5: with overrides.minArgs 20 and
a modern version, a seven-token list is not below the computed threshold
and nothing is appended, while the claim's threshold of 20 would append. -/
theorem minArgs_threshold_degenerate :
    (∀ (ov : Option Nat) (legacy : Bool),
      minArgsCode ov legacy = 5 ∨ minArgsCode ov legacy = 11)
    ∧ minArgsCode (some 20) false = 5
    ∧ ¬ (7 < minArgsCode (some 20) false) := by
  refine ⟨?_, by decide, by decide⟩
  intro ov legacy
  by_cases h : truthyNat ov || legacy <;> simp [minArgsCode, h]

/-- Claim C5, counterexample. The claim states every structured entry is
dropped with its successor and no non-string entry remains. With two
structured entries separated by one token, the splice of the first slides
the second into an already-visited slot: it escapes the typeof check and
survives into the returned list (and, the array being aliased, into the
descriptor's arguments.game). -/
theorem structured_arg_survives_counterexample :
    getLaunchOptions cfgPlain modernStructured vanillaLegacyXY
      = Except.ok (GLOResult.mk (Tok.obj :: List.replicate 8 (Tok.str "t"))
          (some (Tok.obj :: List.replicate 8 (Tok.str "t"))))
    ∧ Tok.obj ∈ Tok.obj :: List.replicate 8 (Tok.str "t") := by
  exact ⟨by decide, List.mem_cons_self _ _⟩

/-- Claim C5, amended. A structured entry is dropped together with exactly
its immediately following token whenever no other structured entry
interferes: for a list with a single structured entry, the loop returns the
remaining tokens (entry and successor removed) with the substitution
applied. When a structured entry slides into an already-visited slot the
pair-drop no longer applies (see the counterexample). -/
theorem argsLoop_drops_single_structured_pair (fs : List (String × String))
    (pre post : List Tok) (hpre : Tok.obj ∉ pre) (hpost : Tok.obj ∉ post) :
    argsLoop fs (pre ++ Tok.obj :: post) 0 = (pre ++ post.drop 1).map (substTok fs) := by
  rw [argsLoop_eq_loopSpec]
  exact loopSpec_single_obj fs pre post hpre hpost

/-- Witness for the amended Claim C5 theorem at a concrete input. -/
theorem argsLoop_drops_single_structured_pair_witness :
    Tok.obj ∉ [Tok.str "a"] ∧ Tok.obj ∉ [Tok.str "b", Tok.str "c"]
    ∧ argsLoop [] ([Tok.str "a"] ++ Tok.obj :: [Tok.str "b", Tok.str "c"]) 0
        = (([Tok.str "a"] ++ [Tok.str "b", Tok.str "c"].drop 1).map (substTok [])) :=
  ⟨by decide, by decide,
    argsLoop_drops_single_structured_pair [] [Tok.str "a"] [Tok.str "b", Tok.str "c"]
      (by decide) (by decide)⟩

/-- Claim C6, counterexample. customLaunchArgs are concatenated after the
substitution loop (handler.js line 540), so a recognized placeholder
contributed through them reaches the returned argument list verbatim:
the token equals a key of the substitution table, unreplaced. -/
theorem customLaunchArgs_placeholder_counterexample :
    getLaunchOptions cfgCustomPlaceholder modernElevenT vanillaLegacyXY
      = Except.ok (GLOResult.mk (List.replicate 11 (Tok.str "t") ++ [Tok.str "${user_type}"])
          (some (List.replicate 11 (Tok.str "t"))))
    ∧ Tok.str "${user_type}" ∈ List.replicate 11 (Tok.str "t") ++ [Tok.str "${user_type}"]
    ∧ lookupField (fields cfgCustomPlaceholder (gloAssetPath cfgCustomPlaceholder false))
        "${user_type}" = some "mojang" := by
  exact ⟨by decide, by decide, by decide⟩

/-- Claim C6, amended. The no-unsubstituted-placeholder invariant holds for
the portion of the argument list that passes through the substitution loop,
under the assumption that no table value is itself a table key: every
string token the loop outputs fails the table lookup. Tokens appended after
the loop (window, server, proxy, customLaunchArgs) are not substituted and
are not covered (see the counterexample). -/
theorem argsLoop_output_no_known_placeholders (fs : List (String × String)) (l : List Tok)
    (hvals : ∀ p ∈ fs, lookupField fs p.2 = none) (s : String)
    (hmem : Tok.str s ∈ argsLoop fs l 0) : lookupField fs s = none := by
  rw [argsLoop_eq_loopSpec] at hmem
  obtain ⟨u, hu⟩ := loopSpec_mem fs l _ hmem
  cases u with
  | obj => simp [substTok] at hu
  | str s0 =>
    simp only [substTok, Tok.str.injEq] at hu
    subst hu
    cases h : lookupField fs s0 with
    | none => simpa [substStr, h] using h
    | some v =>
      obtain ⟨p, hp, hpv⟩ := lookupField_value_mem fs s0 v h
      have := hvals p hp
      rw [hpv] at this
      simpa [substStr, h] using this

/-- Witness for the amended Claim C6 theorem at a concrete input. -/
theorem argsLoop_output_no_known_placeholders_witness :
    (∀ p ∈ fields cfgPlain (gloAssetPath cfgPlain false),
      lookupField (fields cfgPlain (gloAssetPath cfgPlain false)) p.2 = none)
    ∧ Tok.str "mojang"
        ∈ argsLoop (fields cfgPlain (gloAssetPath cfgPlain false)) [Tok.str "${user_type}"] 0
    ∧ lookupField (fields cfgPlain (gloAssetPath cfgPlain false)) "mojang" = none :=
  ⟨by decide, by decide,
    argsLoop_output_no_known_placeholders (fields cfgPlain (gloAssetPath cfgPlain false))
      [Tok.str "${user_type}"] (by decide) "mojang" (by decide)⟩

/-- Claim C7, counterexample. Only the classes list passes through cleanUp
(launcher.js line 108); on the Forge-legacy path the forge jar, the forge
library paths and the client jar are concatenated around it with no
cross-deduplication, so a path present both among the forge paths and among
the classes appears twice in the -cp entry list. -/
theorem forge_classpath_duplicate_counterexample :
    ¬ (forgeClasspathEntries "/r/forge.jar" ["/r/libraries/com/a/a.jar"]
        (cleanUp ["/r/libraries/com/a/a.jar", "/r/libraries/com/b/b.jar"]) "/r/mc.jar").Nodup := by
  decide

/-- Claim C7, amended. cleanUp itself removes duplicates while preserving
first-occurrence order: its output has no duplicates, is a subsequence of
its input, and keeps exactly the elements of the input. The classpath as a
whole is only deduplicated in the non-Forge composition; the Forge-legacy
composition concatenates undeduplicated segments around the cleaned list
(see the counterexample). -/
theorem cleanUp_removes_duplicates (a : List String) :
    (cleanUp a).Nodup ∧ List.Sublist (cleanUp a) a ∧ (∀ x, x ∈ cleanUp a ↔ x ∈ a) := by
  refine ⟨cleanUpAux_nodup a [] List.nodup_nil, ?_, ?_⟩
  · obtain ⟨s, heq, hsub⟩ := cleanUpAux_sublist a []
    rw [cleanUp, heq]
    simpa using hsub
  · intro x
    rw [cleanUp, cleanUpAux_mem]
    simp

/-- Claim C8, counterexample. A library with neither a downloads.artifact
record nor a url issues no download, yet its synthesized Maven path is
still pushed: it does appear in the returned classpath list, contrary to
the claim. -/
theorem urlless_library_counterexample :
    downloadToDirectory "/r/libraries"
        [some (Library.mk "com.typesafe:config:1.2.1" none none none)] (fun _ => false)
      = (["/r/libraries/com/typesafe/config/1.2.1/config-1.2.1.jar"], [])
    ∧ "/r/libraries/com/typesafe/config/1.2.1/config-1.2.1.jar"
        ∈ (downloadToDirectory "/r/libraries"
            [some (Library.mk "com.typesafe:config:1.2.1" none none none)] (fun _ => false)).1 := by
  exact ⟨by decide, by decide⟩

/-- Claim C8, amended. For a library with neither a downloads.artifact
record nor a url, no download is attempted, but the entry is not dropped
from the output: its synthesized path is pushed to the returned classpath
list like every other processed library's. -/
theorem urlless_library_still_on_classpath (directory : String) (onDisk : String → Bool)
    (pre post : List (Option Library)) (nm : String) (rules : Option (List Rule)) :
    (processLibrary directory onDisk (Library.mk nm rules none none)).2 = []
    ∧ (processLibrary directory onDisk (Library.mk nm rules none none)).1
        ∈ (downloadToDirectory directory
            (pre ++ some (Library.mk nm rules none none) :: post) onDisk).1 := by
  constructor
  · simp [processLibrary, truthyStr]
  · simp only [downloadToDirectory, List.filterMap_append, List.filterMap_cons, Option.map_some,
      List.map_append, List.map_cons]
    exact List.mem_append_right _ (List.mem_cons_self _ _)

/-- Claim C9 (code bug). getVersion resolves its promise from the on-disk
version JSON, but control continues past that resolution and the GET of the
version manifest is issued unconditionally: on a fully-cached second run
the resolver still contacts the version-manifest endpoint (and the natives
phase re-downloads, see the Claim C2 theorem), so network fetches do occur. -/
theorem getVersion_always_contacts_manifest :
    (∀ (onDiskJson : Option String) (metaUrl : String) (manifest : List ManifestEntry)
      (versionNumber : String) (fetchBody : String → String),
      (getVersion onDiskJson metaUrl manifest versionNumber fetchBody).2 ≠ [])
    ∧ getVersion (some "cachedVersionJson") "https://launchermeta.mojang.com" [] "1.8.9"
        (fun _ => "")
      = (some "cachedVersionJson",
         ["https://launchermeta.mojang.com/mc/game/version_manifest.json"]) := by
  refine ⟨?_, by decide⟩
  intro o m mf v f
  simp [getVersion]

/-- Claim C10, counterexample. When the selected modern game list is
shorter than the computed threshold, the concat of handler.js line 496
rebinds args to a fresh array: the splice and substitutions then run on the
copy, the descriptor's arguments.game keeps its original placeholder
tokens, and a second call would observe the original, not the substituted,
arguments. -/
theorem short_args_no_mutation_counterexample :
    getLaunchOptions cfgPlain (Descriptor.mk none (some [Tok.str "${user_type}"]) "")
        vanillaLegacyXY
      = Except.ok (GLOResult.mk [Tok.str "mojang", Tok.str "x", Tok.str "y"]
          (some [Tok.str "${user_type}"]))
    ∧ Tok.str "${user_type}" ∉ [Tok.str "mojang", Tok.str "x", Tok.str "y"] := by
  exact ⟨by decide, by decide⟩

/-- Claim C10, amended. When the descriptor supplies arguments.game and the
list is not shorter than the computed threshold (so the line 496 concat
does not rebind args), the call operates on the descriptor's own array:
after the call, arguments.game holds exactly the spliced, substituted and
push-extended token list, which is what a second call on the same
descriptor observes; the returned list additionally appends
customLaunchArgs, which do not land in the descriptor. -/
theorem getLaunchOptions_modern_args_mutation (cfg : LaunchCfg) (g : List Tok)
    (assetsTag : String) (vanilla : Descriptor)
    (h : ¬ (g.length < minArgsCode cfg.overridesMinArgs (isLegacy vanilla.assets))) :
    getLaunchOptions cfg (Descriptor.mk none (some g) assetsTag) vanilla =
      Except.ok (GLOResult.mk
        ((argsLoop (fields cfg (gloAssetPath cfg (isLegacy vanilla.assets))) g 0
            ++ pushTokens cfg) ++ cfg.customLaunchArgs.getD [])
        (some (argsLoop (fields cfg (gloAssetPath cfg (isLegacy vanilla.assets))) g 0
            ++ pushTokens cfg))) := by
  simp [getLaunchOptions, descGameTokens, truthyStr, h]

/-- Witness for the amended Claim C10 theorem at a concrete input. -/
theorem getLaunchOptions_modern_args_mutation_witness :
    (¬ (elevenTok.length < minArgsCode cfgPlain.overridesMinArgs (isLegacy vanillaLegacyXY.assets)))
    ∧ getLaunchOptions cfgPlain (Descriptor.mk none (some elevenTok) "") vanillaLegacyXY =
      Except.ok (GLOResult.mk
        ((argsLoop (fields cfgPlain (gloAssetPath cfgPlain (isLegacy vanillaLegacyXY.assets)))
            elevenTok 0 ++ pushTokens cfgPlain) ++ cfgPlain.customLaunchArgs.getD [])
        (some (argsLoop (fields cfgPlain (gloAssetPath cfgPlain (isLegacy vanillaLegacyXY.assets)))
            elevenTok 0 ++ pushTokens cfgPlain))) :=
  ⟨by decide, getLaunchOptions_modern_args_mutation cfgPlain elevenTok "" vanillaLegacyXY
    (by decide)⟩
